import Mathlib

/-!
Shopping cart handlers of `main.go`.

A shallow embedding of the four cart handlers of `src/main.go`
(`GetCartHandler`, `AddToCartHandler`, `DeleteCartHandler`,
`DeleteManyItemsHandler`) together with the parts of the Go standard library
they rely on (`strconv.Atoi`, `encoding/json` on the record types of the
file), and theorems about them.

Modelling conventions.

* Go `uint` and `int` are 64 bit wide; values are `Nat` and `Int`, and every
  conversion that can wrap or saturate is written out.
* A JSON text is represented by its syntax tree `Json`.  An integer literal
  without fraction or exponent is `Json.int`, the literal `-0` is
  `Json.negZero`, and every other number literal is `Json.real`.
* The Redis server is a finite map from keys to JSON documents.  Every call
  to it takes an extra argument saying whether the call returns an error; for
  a write it also says whether the server had applied the command before the
  error arose, which the caller cannot observe.
* The relational store behind `gorm` is an abstract state `D` with the two
  calls the handlers make; both report an error that the handlers discard.
* A Go slice is `Option (List α)`: `none` is the nil slice, which
  `encoding/json` writes as `null`.
-/

namespace ShoppingCart

/-! ## JSON documents -/

/-- Syntax tree of a JSON text. -/
inductive Json where
  | null : Json
  | bool (b : Bool) : Json
  | int (n : Int) : Json
  | negZero : Json
  | real (lit : String) : Json
  | str (s : String) : Json
  | arr (xs : List Json) : Json
  | obj (kvs : List (String × Json)) : Json

/-- Width of Go `int` and `uint` on the target platform. -/
def intSize : Nat := 64

/-- Go conversion `uint(n)` of an `int`: reduction modulo `2 ^ 64`. -/
def uint (n : Int) : Nat := (n % (2 ^ intSize : Int)).toNat

/-! ## Data model (`main.go` lines 29-39) -/

/-- The record `CartItem`. -/
structure CartItem where
  ProductID : Nat
  Quantity : Int
  UserID : Nat
deriving DecidableEq, Repr

/-- The value of `time.Time`, identified with its RFC 3339 rendering. -/
structure Time where
  rfc3339 : String
deriving DecidableEq, Repr

/-- The columns of `Cart` that `gorm` reads and writes; `Items` carries the
tag `gorm:"-"` and is not among them. -/
structure CartHeader where
  UserID : Nat
  Updated : Time
deriving DecidableEq, Repr

/-- The record `Cart`. -/
structure Cart where
  UserID : Nat
  Items : Option (List CartItem)
  Updated : Time
deriving DecidableEq, Repr

/-- The anonymous record that `GetCartHandler` decodes into. -/
structure CartView where
  UserID : Nat
  Items : Option (List CartItem)
deriving DecidableEq, Repr

/-- Zero value of `CartItem`. -/
def CartItem.zero : CartItem := ⟨0, 0, 0⟩

/-- Zero value of `time.Time`. -/
def Time.zero : Time := ⟨"0001-01-01T00:00:00Z"⟩

/-- Zero value of the header of `Cart`. -/
def CartHeader.zero : CartHeader := ⟨0, Time.zero⟩

/-- Zero value of the record decoded by `GetCartHandler`. -/
def CartView.zero : CartView := ⟨0, none⟩

/-- Every field of the item is within the range of its Go type. -/
def CartItem.InRange (it : CartItem) : Prop :=
  it.ProductID < 2 ^ 64 ∧ (-(2 ^ 63 : Int) ≤ it.Quantity ∧ it.Quantity < 2 ^ 63) ∧
    it.UserID < 2 ^ 64

instance (it : CartItem) : Decidable it.InRange :=
  inferInstanceAs (Decidable (_ ∧ _))

/-- Every element of the slice is within the range of its Go type. -/
def SliceInRange (s : Option (List CartItem)) : Prop := ∀ it ∈ s.getD [], it.InRange

instance (s : Option (List CartItem)) : Decidable (SliceInRange s) :=
  inferInstanceAs (Decidable (∀ it ∈ s.getD [], it.InRange))

/-! ## `strconv.Atoi` -/

/-- The two errors of package `strconv`. -/
inductive NumError where
  | ErrSyntax : NumError
  | ErrRange : NumError
deriving DecidableEq, Repr

/-- Value of a decimal digit, `none` for any other character. -/
def digitVal (c : Char) : Option Nat :=
  if 48 ≤ c.toNat ∧ c.toNat ≤ 57 then some (c.toNat - 48) else none

/-- Largest value of `uint64`. -/
def maxUint64 : Nat := 2 ^ 64 - 1

/-- The loop of `strconv.ParseUint` in base 10 with `n` accumulated so far: a
character that is no digit ends it with a syntax error, and an overflow of
`uint64` ends it at once with the largest value and a range error, before
the remaining characters are looked at. -/
def parseUintLoop : List Char → Nat → Nat × Option NumError
  | [], n => (n, none)
  | c :: cs, n =>
    match digitVal c with
    | none => (0, some .ErrSyntax)
    | some d =>
      if maxUint64 / 10 + 1 ≤ n then (maxUint64, some .ErrRange)
      else if maxUint64 < n * 10 + d then (maxUint64, some .ErrRange)
      else parseUintLoop cs (n * 10 + d)

/-- The call `strconv.ParseUint(s, 10, 0)`. -/
def ParseUint (s : List Char) : Nat × Option NumError :=
  match s with
  | [] => (0, some .ErrSyntax)
  | _ :: _ => parseUintLoop s 0

/-- The call `strconv.ParseInt(s, 10, 0)`: an optional sign, then
`ParseUint`; a syntax error gives `0`, a magnitude out of range gives the
nearest bound of `int` with a range error. -/
def ParseInt (s : String) : Int × Option NumError :=
  match s.data with
  | [] => (0, some .ErrSyntax)
  | c :: cs =>
    let neg : Bool := c = '-'
    let rest : List Char := if c = '+' ∨ c = '-' then cs else c :: cs
    let r := ParseUint rest
    if r.2 = some .ErrSyntax then (0, some .ErrSyntax)
    else if neg = false ∧ 2 ^ (intSize - 1) ≤ r.1 then
      ((2 ^ (intSize - 1) : Int) - 1, some .ErrRange)
    else if neg = true ∧ 2 ^ (intSize - 1) < r.1 then
      (-(2 ^ (intSize - 1) : Int), some .ErrRange)
    else (if neg then -(r.1 : Int) else (r.1 : Int), none)

/-- The function `strconv.Atoi`: the returned `int` and the returned error.
Its shortcut for strings of fewer than 19 bytes returns what `ParseInt`
returns on them (no overflow can occur, and any byte that is no digit is a
syntax error on both paths), so the function is `ParseInt`. -/
def Atoi (s : String) : Int × Option NumError := ParseInt s

/-! ## `encoding/json` on the records of `main.go` -/

/-- The fold of one rune in `encoding/json`, the smallest rune of its
case-folding orbit: an ASCII letter gives its capital, and the two runes
U+017F and U+212A give `S` and `K`.  Every other rune outside ASCII folds to
a rune outside ASCII, so it never matches a character of the ASCII tags of
`main.go`; it is left as it is. -/
def foldRune (c : Char) : Char :=
  if c.toNat = 0x17F then 'S' else if c.toNat = 0x212A then 'K' else c.toUpper

/-- The folded form of a key. -/
def foldName (s : String) : List Char := s.data.map foldRune

/-- An object key selects the field tagged `name`: exact match, or else
equality of the folded forms. -/
def keyIs (key name : String) : Bool := foldName key == foldName name

/-- Where in a record the decoder is, for the text of a type error: the name
of the enclosing struct type and the tags of the fields entered. -/
structure ErrorContext where
  Struct : String
  FieldStack : List String

/-- The decoder outside any struct field. -/
def ErrorContext.top : ErrorContext := ⟨"", []⟩

/-- The decoder inside field `name` of the struct type named `struct`. -/
def ErrorContext.enter (ctx : ErrorContext) (struct name : String) : ErrorContext :=
  ⟨struct, ctx.FieldStack ++ [name]⟩

/-- The text of `UnmarshalTypeError.Error` for JSON value `value` and Go type
`goType`. -/
def typeError (ctx : ErrorContext) (value goType : String) : String :=
  if ctx.Struct = "" ∧ ctx.FieldStack = [] then
    "json: cannot unmarshal " ++ value ++ " into Go value of type " ++ goType
  else
    "json: cannot unmarshal " ++ value ++ " into Go struct field " ++ ctx.Struct ++ "." ++
      ".".intercalate ctx.FieldStack ++ " of type " ++ goType

/-- The word by which a type error names the kind of a JSON value. -/
def Json.kind : Json → String
  | .null => "null"
  | .bool _ => "bool"
  | .int _ => "number"
  | .negZero => "number"
  | .real _ => "number"
  | .str _ => "string"
  | .arr _ => "array"
  | .obj _ => "object"

/-- Decoding a JSON value into a field of type `uint`
(`strconv.ParseUint` on a number literal). -/
def unmarshalUint (ctx : ErrorContext) (old : Nat) : Json → Except String Nat
  | .null => .ok old
  | .int n =>
    if 0 ≤ n ∧ n < 2 ^ intSize then .ok n.toNat
    else .error (typeError ctx ("number " ++ toString n) "uint")
  | .negZero => .error (typeError ctx "number -0" "uint")
  | .real lit => .error (typeError ctx ("number " ++ lit) "uint")
  | j => .error (typeError ctx j.kind "uint")

/-- Decoding a JSON value into a field of type `int`
(`strconv.ParseInt` on a number literal). -/
def unmarshalInt (ctx : ErrorContext) (old : Int) : Json → Except String Int
  | .null => .ok old
  | .int n =>
    if -(2 ^ (intSize - 1) : Int) ≤ n ∧ n < 2 ^ (intSize - 1) then .ok n
    else .error (typeError ctx ("number " ++ toString n) "int")
  | .negZero => .ok 0
  | .real lit => .error (typeError ctx ("number " ++ lit) "int")
  | j => .error (typeError ctx j.kind "int")

/-- One key of an object decoded into a `CartItem`: the field with a matching
tag is set, an unknown key is skipped. -/
def setItemField (ctx : ErrorContext) (it : CartItem) (kv : String × Json) :
    Except String CartItem :=
  if keyIs kv.1 "product_id" then
    (unmarshalUint (ctx.enter "CartItem" "product_id") it.ProductID kv.2).map
      fun n => { it with ProductID := n }
  else if keyIs kv.1 "quantity" then
    (unmarshalInt (ctx.enter "CartItem" "quantity") it.Quantity kv.2).map
      fun n => { it with Quantity := n }
  else if keyIs kv.1 "user_id" then
    (unmarshalUint (ctx.enter "CartItem" "user_id") it.UserID kv.2).map
      fun n => { it with UserID := n }
  else .ok it

/-- Decoding a JSON value into a `CartItem` that currently holds `it`. -/
def unmarshalCartItem (ctx : ErrorContext) (it : CartItem) : Json → Except String CartItem
  | .null => .ok it
  | .obj kvs => kvs.foldlM (setItemField ctx) it
  | j => .error (typeError ctx j.kind "main.CartItem")

/-- Decoding a JSON value into a `[]CartItem`: `null` gives the nil slice, an
array gives its elements decoded in order, anything else is a type error.
(Elements are decoded into fresh zero values.) -/
def unmarshalItems (ctx : ErrorContext) : Json → Except String (Option (List CartItem))
  | .null => .ok none
  | .arr xs => (xs.mapM (unmarshalCartItem ctx CartItem.zero)).map some
  | j => .error (typeError ctx j.kind "[]main.CartItem")

/-- One key of an object decoded into the record of `GetCartHandler`, whose
struct type has no name. -/
def setViewField (cv : CartView) (kv : String × Json) : Except String CartView :=
  if keyIs kv.1 "user_id" then
    (unmarshalUint (ErrorContext.top.enter "" "user_id") cv.UserID kv.2).map
      fun n => { cv with UserID := n }
  else if keyIs kv.1 "items" then
    (unmarshalItems (ErrorContext.top.enter "" "items") kv.2).map
      fun xs => { cv with Items := xs }
  else .ok cv

/-- The name Go prints for the type of the record of `GetCartHandler`. -/
def cartViewType : String :=
  "struct \x7b UserID uint \"json:\\\"user_id\\\"\"; " ++
    "Items []main.CartItem \"json:\\\"items\\\"\" \x7d"

/-- Decoding a JSON value into the record of `GetCartHandler`, lines 102-107. -/
def unmarshalCartView : Json → Except String CartView
  | .null => .ok CartView.zero
  | .obj kvs => kvs.foldlM setViewField CartView.zero
  | j => .error (typeError ErrorContext.top j.kind cartViewType)

/-- Encoding of a `CartItem`. -/
def marshalCartItem (it : CartItem) : Json :=
  .obj [("product_id", .int it.ProductID), ("quantity", .int it.Quantity),
    ("user_id", .int it.UserID)]

/-- Encoding of a `[]CartItem`. -/
def marshalItems : Option (List CartItem) → Json
  | none => .null
  | some xs => .arr (xs.map marshalCartItem)

/-- Encoding of a `Cart`.  (The handler discards the error of `json.Marshal`;
encoding fails only for a time outside the years 0 to 9999, which `time.Now()`
does not return.) -/
def marshalCart (c : Cart) : Json :=
  .obj [("user_id", .int c.UserID), ("items", marshalItems c.Items),
    ("updated", .str c.Updated.rfc3339)]

/-- Encoding of `map[string]string{"message": msg}`. -/
def marshalMessage (msg : String) : Json := .obj [("message", .str msg)]

/-! ## The two stores -/

/-- Contents of the Redis server: the document stored under each key. -/
abbrev FastStore := String → Option Json

/-- The calls that the handlers make on `gorm`, over a store state `D`.
`FirstOrCreate d dest uid` is `db.FirstOrCreate(&cart, Cart{UserID: uid})` on
a record whose columns hold `dest`; `Save d h` is `db.Save(&cart)` on a record
whose columns hold `h`.  Each returns the new store state, the columns of the
record after the call, and the error of the call, if any. -/
structure GormDB (D : Type) where
  FirstOrCreate : D → CartHeader → Nat → D × CartHeader × Option String
  Save : D → CartHeader → D × CartHeader × Option String

/-- State of both stores. -/
structure World (D : Type) where
  db : D
  rdb : FastStore

/-- An error returned by a write to Redis: its text, and whether the server
had applied the command when the error arose (a reply lost on the way back)
or not (the command never arrived).  The client sees the text only. -/
structure WriteFault where
  msg : String
  applied : Bool

/-- Outcome of `rdb.Get(...).Result()`. -/
inductive GetResult where
  | val (cartJSON : Json) : GetResult
  | redisNil : GetResult
  | err (msg : String) : GetResult

/-- The call `rdb.Get(ctx, key).Result()`; `fault` is the error of the call,
if any. -/
def rdbGet (rdb : FastStore) (key : String) (fault : Option String) : GetResult :=
  match fault with
  | some e => .err e
  | none =>
    match rdb key with
    | some v => .val v
    | none => .redisNil

/-- The call `rdb.Set(ctx, key, value, 0).Err()`: the store after the call
and the error. -/
def rdbSet (rdb : FastStore) (key : String) (value : Json) (fault : Option WriteFault) :
    FastStore × Option String :=
  match fault with
  | some f =>
    (if f.applied then fun k => if k = key then some value else rdb k else rdb, some f.msg)
  | none => (fun k => if k = key then some value else rdb k, none)

/-- The call `rdb.Del(ctx, key).Err()`: the store after the call and the
error. -/
def rdbDel (rdb : FastStore) (key : String) (fault : Option WriteFault) :
    FastStore × Option String :=
  match fault with
  | some f => (if f.applied then fun k => if k = key then none else rdb k else rdb, some f.msg)
  | none => (fun k => if k = key then none else rdb k, none)

/-- The key `fmt.Sprintf("cart:%s", userID)`. -/
def cartKey (userID : String) : String := "cart:" ++ userID

/-! ## HTTP responses -/

/-- Body of a response: a JSON document written by `json.NewEncoder(w).Encode`
or the plain text written by `http.Error`. -/
inductive Body where
  | json (j : Json) : Body
  | text (msg : String) : Body

/-- Status code and body of a response. -/
structure Response where
  status : Nat
  body : Body

/-- The call `http.Error(w, msg, code)`. -/
def httpError (msg : String) (code : Nat) : Response := ⟨code, .text msg⟩

/-- A body written by `json.NewEncoder(w).Encode` with no status set. -/
def encodeOK (j : Json) : Response := ⟨200, .json j⟩

/-! ## Handlers -/

/-- The handler `GetCartHandler`, lines 88-113. -/
def GetCartHandler {D : Type} (getFault : Option String) (w : World D) (userID : String) :
    World D × Response :=
  match rdbGet w.rdb (cartKey userID) getFault with
  | .redisNil => (w, encodeOK (marshalItems (some [])))
  | .err e => (w, httpError e 500)
  | .val cartJSON =>
    match unmarshalCartView cartJSON with
    | .error e => (w, httpError e 500)
    | .ok cart => (w, encodeOK (marshalItems cart.Items))

/-- Go `append(s, x)` on a slice. -/
def appendItem (s : Option (List CartItem)) (x : CartItem) : Option (List CartItem) :=
  some (s.getD [] ++ [x])

/-- Lines 128-132 of `AddToCartHandler`: the database after `FirstOrCreate`
and `Save`, and the record `cart` after them.  The record starts as the zero
value; `gorm` fills and reads its columns only, so `Items` is nil when `item`
is appended.  A column read back into the field `UserID` is a `uint`, hence
the reduction modulo `2 ^ 64`.  `now` is the value of `time.Now()`. -/
def buildCart {D : Type} (gorm : GormDB D) (now : Time) (db : D) (item : CartItem) : D × Cart :=
  let cart : Cart := ⟨0, none, Time.zero⟩
  let r1 := gorm.FirstOrCreate db ⟨cart.UserID, cart.Updated⟩ item.UserID
  let cart : Cart := { cart with UserID := r1.2.1.UserID % 2 ^ intSize, Updated := r1.2.1.Updated }
  let cart : Cart := { cart with Items := appendItem cart.Items item }
  let cart : Cart := { cart with Updated := now }
  let r2 := gorm.Save r1.1 ⟨cart.UserID, cart.Updated⟩
  let cart : Cart := { cart with UserID := r2.2.1.UserID % 2 ^ intSize, Updated := r2.2.1.Updated }
  (r2.1, cart)

/-- The handler `AddToCartHandler`, lines 115-142. -/
def AddToCartHandler {D : Type} (gorm : GormDB D) (now : Time) (setFault : Option WriteFault)
    (w : World D) (userID : String) (body : Json) : World D × Response :=
  let userInt := (Atoi userID).1
  match unmarshalCartItem ErrorContext.top CartItem.zero body with
  | .error e => (w, httpError e 400)
  | .ok decoded =>
    let item : CartItem := { decoded with UserID := uint userInt }
    let (db1, cart) := buildCart gorm now w.db item
    let cartJSON := marshalCart cart
    match rdbSet w.rdb (cartKey userID) cartJSON setFault with
    | (rdb1, some e) => (⟨db1, rdb1⟩, httpError e 500)
    | (rdb1, none) => (⟨db1, rdb1⟩, encodeOK (marshalCart cart))

/-- The handler `DeleteCartHandler`, lines 144-155. -/
def DeleteCartHandler {D : Type} (delFault : Option WriteFault) (w : World D)
    (userID : String) : World D × Response :=
  match rdbDel w.rdb (cartKey userID) delFault with
  | (rdb1, some e) => (⟨w.db, rdb1⟩, httpError e 500)
  | (rdb1, none) => (⟨w.db, rdb1⟩, encodeOK (marshalMessage "Cart deleted successfully"))

/-- The scan `for i, cartItem := range cart` of lines 181-186: the index of
the first element at or after position `i` whose `ProductID` is `pid`. -/
def firstMatch (pid : Nat) : List CartItem → Nat → Option Nat
  | [], _ => none
  | cartItem :: rest, i => if cartItem.ProductID = pid then some i else firstMatch pid rest (i + 1)

/-- The inner loop of lines 181-186 for one requested `item`: at the first
match `i` the slice becomes `append(cart[:i], cart[i+1:]...)` and the loop
stops. -/
def removeOne (cart : List CartItem) (item : CartItem) : List CartItem :=
  match firstMatch item.ProductID cart 0 with
  | some i => cart.take i ++ cart.drop (i + 1)
  | none => cart

/-- The loop of lines 180-187 over the requested `items`. -/
def removeLoop (cart : List CartItem) (items : List CartItem) : List CartItem :=
  items.foldl removeOne cart

/-- The handler `DeleteManyItemsHandler`, lines 157-201.  (Encoding a
`[]CartItem` cannot fail, so the branch of lines 190-193 is never taken.) -/
def DeleteManyItemsHandler {D : Type} (getFault : Option String) (setFault : Option WriteFault)
    (w : World D) (userID : String) (body : Json) : World D × Response :=
  match unmarshalItems ErrorContext.top body with
  | .error e => (w, httpError e 400)
  | .ok items =>
    match rdbGet w.rdb (cartKey userID) getFault with
    | .err e => (w, httpError e 500)
    | .redisNil => (w, httpError "redis: nil" 500)
    | .val cartJSON =>
      match unmarshalItems ErrorContext.top cartJSON with
      | .error e => (w, httpError e 500)
      | .ok cart =>
        let cart := cart.map fun c => removeLoop c (items.getD [])
        let updatedCartJSON := marshalItems cart
        match rdbSet w.rdb (cartKey userID) updatedCartJSON setFault with
        | (rdb1, some e) => (⟨w.db, rdb1⟩, httpError e 500)
        | (rdb1, none) => (⟨w.db, rdb1⟩, encodeOK (marshalMessage "Items deleted successfully"))

/-! ## A relational store for examples -/

/-- Rows of the table `carts`, and whether the database can be reached. -/
structure Table where
  rows : List CartHeader
  up : Bool

/-- The row with the smallest primary key, as `ORDER BY user_id LIMIT 1`
returns it. -/
def firstRow : List CartHeader → Option CartHeader
  | [] => none
  | h :: rest =>
    match firstRow rest with
    | none => some h
    | some m => if h.UserID ≤ m.UserID then some h else some m

/-- The key that the auto-incremented column gives to an inserted row. -/
def nextKey (rows : List CartHeader) : Nat := (rows.map CartHeader.UserID).foldl max 0 + 1

/-- An implementation of the `gorm` calls on `Table`, after `gorm` on SQLite
for tables whose keys are below `2 ^ 63`, the only ones used in this file.
Every call fails, leaving table and record alone, while the database is
down.  `FirstOrCreate` with the zero key has no condition and returns the row
with the smallest key; otherwise it returns the row with that key; when there
is no row to return it inserts one.  `Save` of a record with the zero key
inserts a row, and otherwise updates the row with that key or inserts it.  An
insert with the zero key receives the next key of the column. -/
def tableGorm : GormDB Table where
  FirstOrCreate d dest uid :=
    if d.up = false then (d, dest, some "unable to open database file")
    else
      match (if uid = 0 then firstRow d.rows else d.rows.find? (fun h => h.UserID == uid)) with
      | some h => (d, h, none)
      | none =>
        let key := if uid = 0 then nextKey d.rows else uid
        ({ d with rows := d.rows ++ [⟨key, dest.Updated⟩] }, ⟨key, dest.Updated⟩, none)
  Save d h :=
    if d.up = false then (d, h, some "unable to open database file")
    else
      let key := if h.UserID = 0 then nextKey d.rows else h.UserID
      ({ d with rows := d.rows.filter (fun r => r.UserID != key) ++ [⟨key, h.Updated⟩] },
        ⟨key, h.Updated⟩, none)

/-- Both stores empty, the database reachable. -/
def emptyWorld : World Table := ⟨⟨[], true⟩, fun _ => none⟩

/-- The cache empty and the database unreachable. -/
def downWorld : World Table := ⟨⟨[], false⟩, fun _ => none⟩

/-- The world in which the cache holds `cartJSON` under `cart:<userID>` and
nothing else. -/
def worldWithEntry (userID : String) (cartJSON : Json) : World Table :=
  ⟨emptyWorld.db, fun k => if k = cartKey userID then some cartJSON else none⟩

/-! ## The removal described in words -/

/-- Number of entries of the list whose `ProductID` is `p`. -/
def countProduct (p : Nat) (l : List CartItem) : Nat :=
  l.countP fun c => decide (c.ProductID = p)

/-- Removal of the first item, in list order, whose `ProductID` is `p`; the
list is returned as it is when no item matches. -/
def removeFirstByProduct (p : Nat) : List CartItem → List CartItem
  | [] => []
  | c :: cs => if c.ProductID = p then cs else c :: removeFirstByProduct p cs

/-- The requested product identifiers processed from left to right, each
removing at most one item. -/
def removeRequested (l : List CartItem) (ps : List Nat) : List CartItem :=
  ps.foldl (fun acc p => removeFirstByProduct p acc) l

/-- The distinct product identifiers occurring in a list. -/
def productIDs (l : List CartItem) : Finset Nat := (l.map CartItem.ProductID).toFinset

/-- The string is a non-empty run of the characters `0` to `9`. -/
def IsDecimal (s : String) : Prop :=
  s.data ≠ [] ∧ ∀ c ∈ s.data, 48 ≤ c.toNat ∧ c.toNat ≤ 57

/-- The number written by a run of decimal digits, most significant first. -/
def decimalValue (s : String) : Nat :=
  Nat.ofDigits 10 ((s.data.map fun c => c.toNat - 48).reverse)

instance (s : String) : Decidable (IsDecimal s) :=
  inferInstanceAs (Decidable (_ ∧ _))

/-! ## Lemmas on the removal loop -/

theorem firstMatch_succ (pid : Nat) (l : List CartItem) (i : Nat) :
    firstMatch pid l (i + 1) = (firstMatch pid l i).map (· + 1) := by
  induction l generalizing i with
  | nil => rfl
  | cons c cs ih =>
    simp only [firstMatch]
    split
    · rfl
    · exact ih (i + 1)

theorem removeOne_nil (item : CartItem) : removeOne [] item = [] := rfl

theorem removeOne_cons (c : CartItem) (cs : List CartItem) (item : CartItem) :
    removeOne (c :: cs) item =
      if c.ProductID = item.ProductID then cs else c :: removeOne cs item := by
  unfold removeOne
  by_cases h : c.ProductID = item.ProductID
  · simp [firstMatch, h]
  · simp only [firstMatch, if_neg h]
    rw [firstMatch_succ]
    cases firstMatch item.ProductID cs 0 <;> simp

theorem removeOne_eq (l : List CartItem) (item : CartItem) :
    removeOne l item = removeFirstByProduct item.ProductID l := by
  induction l with
  | nil => rfl
  | cons c cs ih => rw [removeOne_cons, removeFirstByProduct, ih]

theorem removeLoop_eq (l items : List CartItem) :
    removeLoop l items = removeRequested l (items.map CartItem.ProductID) := by
  unfold removeLoop removeRequested
  induction items generalizing l with
  | nil => rfl
  | cons r rs ih => simp only [List.foldl_cons, List.map_cons, removeOne_eq, ih]

theorem removeLoop_nil (l : List CartItem) : removeLoop l [] = l := rfl

theorem removeLoop_cons (l : List CartItem) (r : CartItem) (rs : List CartItem) :
    removeLoop l (r :: rs) = removeLoop (removeOne l r) rs := rfl

theorem removeOne_sublist (l : List CartItem) (item : CartItem) :
    List.Sublist (removeOne l item) l := by
  induction l with
  | nil => exact List.Sublist.slnil
  | cons c cs ih =>
    rw [removeOne_cons]
    split
    · exact List.sublist_cons_self c cs
    · exact ih.cons₂ c

theorem removeLoop_sublist (l items : List CartItem) :
    List.Sublist (removeLoop l items) l := by
  induction items generalizing l with
  | nil => exact List.Sublist.refl l
  | cons r rs ih => exact (ih (removeOne l r)).trans (removeOne_sublist l r)

theorem countProduct_cons (p : Nat) (c : CartItem) (cs : List CartItem) :
    countProduct p (c :: cs) = countProduct p cs + if c.ProductID = p then 1 else 0 := by
  unfold countProduct
  rw [List.countP_cons]
  simp

theorem countProduct_removeOne (p : Nat) (l : List CartItem) (item : CartItem) :
    countProduct p (removeOne l item) =
      if item.ProductID = p then countProduct p l - 1 else countProduct p l := by
  induction l with
  | nil => simp [removeOne_nil, countProduct]
  | cons c cs ih =>
    rw [removeOne_cons]
    by_cases h : c.ProductID = item.ProductID
    · rw [if_pos h, countProduct_cons]
      by_cases hp : item.ProductID = p
      · simp [hp, h.trans hp]
      · have : ¬ c.ProductID = p := fun hc => hp (h.symm.trans hc)
        simp [hp, this]
    · rw [if_neg h, countProduct_cons, countProduct_cons, ih]
      by_cases hp : item.ProductID = p
      · have : ¬ c.ProductID = p := fun hc => h (hc.trans hp.symm)
        simp [hp, this]
      · simp [hp]

theorem countProduct_removeLoop (p : Nat) (l items : List CartItem) :
    countProduct p (removeLoop l items) = countProduct p l - countProduct p items := by
  induction items generalizing l with
  | nil => simp [removeLoop_nil, countProduct]
  | cons r rs ih =>
    rw [removeLoop_cons, ih, countProduct_removeOne, countProduct_cons]
    split <;> omega

theorem removeOne_comm (l : List CartItem) (a b : CartItem) :
    removeOne (removeOne l a) b = removeOne (removeOne l b) a := by
  induction l with
  | nil => rfl
  | cons c cs ih =>
    by_cases ha : c.ProductID = a.ProductID <;> by_cases hb : c.ProductID = b.ProductID
    · rw [removeOne_cons c cs a, removeOne_cons c cs b, if_pos ha, if_pos hb,
        removeOne_eq, removeOne_eq, ha.symm.trans hb]
    · rw [removeOne_cons c cs a, removeOne_cons c cs b, if_pos ha, if_neg hb,
        removeOne_cons, if_pos ha]
    · rw [removeOne_cons c cs a, removeOne_cons c cs b, if_neg ha, if_pos hb,
        removeOne_cons, if_pos hb]
    · rw [removeOne_cons c cs a, removeOne_cons c cs b, if_neg ha, if_neg hb,
        removeOne_cons, removeOne_cons, if_neg ha, if_neg hb, ih]

theorem removeLoop_perm (l : List CartItem) {r1 r2 : List CartItem} (h : List.Perm r1 r2) :
    removeLoop l r1 = removeLoop l r2 := by
  induction h generalizing l with
  | nil => rfl
  | cons x _ ih => exact ih (removeOne l x)
  | swap x y rs => simp only [removeLoop_cons, removeOne_comm]
  | trans _ _ ih1 ih2 => exact (ih1 l).trans (ih2 l)

theorem countProduct_eq_count (p : Nat) (l : List CartItem) :
    countProduct p l = (l.map CartItem.ProductID).count p := by
  induction l with
  | nil => rfl
  | cons c cs ih =>
    rw [countProduct_cons, ih, List.map_cons, List.count_cons]
    simp

theorem countProduct_eq_zero {p : Nat} {l : List CartItem} (h : p ∉ productIDs l) :
    countProduct p l = 0 := by
  rw [countProduct_eq_count]
  exact List.count_eq_zero_of_not_mem (fun hm => h (List.mem_toFinset.mpr hm))

theorem sum_countProduct (l : List CartItem) (S : Finset Nat) (h : productIDs l ⊆ S) :
    ∑ p in S, countProduct p l = l.length := by
  rw [← Finset.sum_subset h (fun x _ hx => countProduct_eq_zero hx)]
  simp only [countProduct_eq_count, productIDs]
  rw [List.sum_toFinset_count_eq_length, List.length_map]

theorem productIDs_sublist {l1 l2 : List CartItem} (h : List.Sublist l1 l2) :
    productIDs l1 ⊆ productIDs l2 := by
  intro p hp
  unfold productIDs at *
  rw [List.mem_toFinset] at *
  exact (h.map CartItem.ProductID).subset hp

theorem length_removeLoop (l items : List CartItem) :
    (removeLoop l items).length +
      ∑ p in productIDs items, min (countProduct p l) (countProduct p items) = l.length := by
  have hS1 : productIDs l ⊆ productIDs l ∪ productIDs items := Finset.subset_union_left
  have hS2 : productIDs items ⊆ productIDs l ∪ productIDs items := Finset.subset_union_right
  have hS3 : productIDs (removeLoop l items) ⊆ productIDs l ∪ productIDs items :=
    (productIDs_sublist (removeLoop_sublist l items)).trans hS1
  rw [Finset.sum_subset hS2 (fun x _ hx => by rw [countProduct_eq_zero hx]; simp),
    ← sum_countProduct _ _ hS3, ← sum_countProduct _ _ hS1, ← Finset.sum_add_distrib]
  refine Finset.sum_congr rfl (fun p _ => ?_)
  rw [countProduct_removeLoop]
  omega

/-! ## Lemmas on the JSON codec -/

theorem uint_lt (n : Int) : uint n < 2 ^ 64 := by
  unfold uint intSize
  have h1 : 0 ≤ n % (2 ^ 64 : Int) := Int.emod_nonneg n (by norm_num)
  have h2 : n % (2 ^ 64 : Int) < 2 ^ 64 := Int.emod_lt_of_pos n (by norm_num)
  omega

theorem uint_of_nat {n : Nat} (h : n < 2 ^ 63) : uint (n : Int) = n := by
  unfold uint intSize
  have h2 : (n : Int) % (2 ^ 64 : Int) = n := Int.emod_eq_of_lt (by omega) (by omega)
  rw [h2]
  exact Int.toNat_ofNat n

theorem unmarshalUint_ok {ctx : ErrorContext} {old n : Nat} {j : Json}
    (h : unmarshalUint ctx old j = .ok n) (hold : old < 2 ^ 64) : n < 2 ^ 64 := by
  cases j with
  | null => cases h; exact hold
  | int m =>
    simp only [unmarshalUint] at h
    split at h
    · rename_i hm
      cases h
      simp only [intSize] at hm
      omega
    · cases h
  | bool _ => cases h
  | negZero => cases h
  | real _ => cases h
  | str _ => cases h
  | arr _ => cases h
  | obj _ => cases h

theorem unmarshalInt_ok {ctx : ErrorContext} {old n : Int} {j : Json}
    (h : unmarshalInt ctx old j = .ok n) (hold : -(2 ^ 63 : Int) ≤ old ∧ old < 2 ^ 63) :
    -(2 ^ 63 : Int) ≤ n ∧ n < 2 ^ 63 := by
  cases j with
  | null => cases h; exact hold
  | int m =>
    simp only [unmarshalInt] at h
    split at h
    · rename_i hm
      cases h
      simpa [intSize] using hm
    · cases h
  | negZero => cases h; norm_num
  | bool _ => cases h
  | real _ => cases h
  | str _ => cases h
  | arr _ => cases h
  | obj _ => cases h

theorem unmarshalUint_int {ctx : ErrorContext} {old n : Nat} (h : n < 2 ^ 64) :
    unmarshalUint ctx old (.int (n : Int)) = .ok n := by
  unfold unmarshalUint
  have h1 : (0 : Int) ≤ n ∧ (n : Int) < 2 ^ intSize := by
    simp only [intSize]
    omega
  simp only [if_pos h1, Int.toNat_ofNat]

theorem unmarshalInt_int {ctx : ErrorContext} {old n : Int}
    (h : -(2 ^ 63 : Int) ≤ n ∧ n < 2 ^ 63) : unmarshalInt ctx old (.int n) = .ok n := by
  unfold unmarshalInt
  have h1 : -(2 ^ (intSize - 1) : Int) ≤ n ∧ n < 2 ^ (intSize - 1) := by
    simpa [intSize] using h
  simp only [if_pos h1]

theorem setItemField_inRange {ctx : ErrorContext} {it it1 : CartItem} {kv : String × Json}
    (h : setItemField ctx it kv = .ok it1) (hr : it.InRange) : it1.InRange := by
  unfold setItemField at h
  obtain ⟨h1, h2, h3⟩ := hr
  split at h
  · cases hu : unmarshalUint (ctx.enter "CartItem" "product_id") it.ProductID kv.2 with
    | error e => rw [hu] at h; cases h
    | ok n => rw [hu] at h; cases h; exact ⟨unmarshalUint_ok hu h1, h2, h3⟩
  · split at h
    · cases hu : unmarshalInt (ctx.enter "CartItem" "quantity") it.Quantity kv.2 with
      | error e => rw [hu] at h; cases h
      | ok n => rw [hu] at h; cases h; exact ⟨h1, unmarshalInt_ok hu h2, h3⟩
    · split at h
      · cases hu : unmarshalUint (ctx.enter "CartItem" "user_id") it.UserID kv.2 with
        | error e => rw [hu] at h; cases h
        | ok n => rw [hu] at h; cases h; exact ⟨h1, h2, unmarshalUint_ok hu h3⟩
      · cases h; exact ⟨h1, h2, h3⟩

theorem foldlM_setItemField_inRange {ctx : ErrorContext} (kvs : List (String × Json))
    {it it1 : CartItem} (h : kvs.foldlM (setItemField ctx) it = .ok it1) (hr : it.InRange) :
    it1.InRange := by
  induction kvs generalizing it with
  | nil => cases h; exact hr
  | cons kv rest ih =>
    rw [List.foldlM_cons] at h
    cases hs : setItemField ctx it kv with
    | error e => rw [hs] at h; cases h
    | ok it2 =>
      rw [hs] at h
      exact ih h (setItemField_inRange hs hr)

theorem CartItem.zero_inRange : CartItem.zero.InRange := by
  unfold CartItem.InRange CartItem.zero
  norm_num

theorem unmarshalCartItem_inRange {ctx : ErrorContext} {it it1 : CartItem} {j : Json}
    (h : unmarshalCartItem ctx it j = .ok it1) (hr : it.InRange) : it1.InRange := by
  cases j with
  | null => cases h; exact hr
  | obj kvs => exact foldlM_setItemField_inRange kvs h hr
  | bool _ => cases h
  | int _ => cases h
  | negZero => cases h
  | real _ => cases h
  | str _ => cases h
  | arr _ => cases h

theorem unmarshal_marshalCartItem (ctx : ErrorContext) (z it : CartItem) (hr : it.InRange) :
    unmarshalCartItem ctx z (marshalCartItem it) = .ok it := by
  obtain ⟨h1, h2, h3⟩ := hr
  have k1 : keyIs "product_id" "product_id" = true := by decide
  have k2 : keyIs "quantity" "product_id" = false := by decide
  have k3 : keyIs "quantity" "quantity" = true := by decide
  have k4 : keyIs "user_id" "product_id" = false := by decide
  have k5 : keyIs "user_id" "quantity" = false := by decide
  have k6 : keyIs "user_id" "user_id" = true := by decide
  simp only [unmarshalCartItem, marshalCartItem, List.foldlM_cons, List.foldlM_nil, setItemField,
    k1, k2, k3, k4, k5, k6, unmarshalUint_int h1, unmarshalInt_int h2, unmarshalUint_int h3]
  rfl

theorem mapM_unmarshal_marshal (ctx : ErrorContext) (xs : List CartItem)
    (hr : ∀ it ∈ xs, it.InRange) :
    (xs.map marshalCartItem).mapM (unmarshalCartItem ctx CartItem.zero) = .ok xs := by
  induction xs with
  | nil => rfl
  | cons x rest ih =>
    rw [List.map_cons, List.mapM_cons,
      unmarshal_marshalCartItem ctx _ x (hr x (List.mem_cons_self x rest)),
      ih (fun it hit => hr it (List.mem_cons_of_mem x hit))]
    rfl

theorem mapM_unmarshal_inRange {ctx : ErrorContext} (js : List Json) {xs : List CartItem}
    (h : js.mapM (unmarshalCartItem ctx CartItem.zero) = .ok xs) : ∀ it ∈ xs, it.InRange := by
  induction js generalizing xs with
  | nil =>
    cases h
    intro it hit
    cases hit
  | cons j rest ih =>
    rw [List.mapM_cons] at h
    cases h1 : unmarshalCartItem ctx CartItem.zero j with
    | error e => rw [h1] at h; cases h
    | ok x =>
      cases h2 : rest.mapM (unmarshalCartItem ctx CartItem.zero) with
      | error e => rw [h1, h2] at h; cases h
      | ok ys =>
        rw [h1, h2] at h
        cases h
        intro it hit
        rcases List.mem_cons.mp hit with rfl | hm
        · exact unmarshalCartItem_inRange h1 CartItem.zero_inRange
        · exact ih h2 it hm

theorem unmarshalItems_inRange {ctx : ErrorContext} {j : Json} {s : Option (List CartItem)}
    (h : unmarshalItems ctx j = .ok s) : SliceInRange s := by
  cases j with
  | null =>
    cases h
    intro it hit
    cases hit
  | arr xs =>
    simp only [unmarshalItems] at h
    cases h2 : xs.mapM (unmarshalCartItem ctx CartItem.zero) with
    | error e => rw [h2] at h; cases h
    | ok ys =>
      rw [h2] at h
      cases h
      exact mapM_unmarshal_inRange xs h2
  | bool _ => cases h
  | int _ => cases h
  | negZero => cases h
  | real _ => cases h
  | str _ => cases h
  | obj _ => cases h

theorem unmarshal_marshalItems (ctx : ErrorContext) (s : Option (List CartItem))
    (hr : SliceInRange s) : unmarshalItems ctx (marshalItems s) = .ok s := by
  cases s with
  | none => rfl
  | some xs =>
    simp only [marshalItems, unmarshalItems]
    rw [mapM_unmarshal_marshal ctx xs hr]
    rfl

theorem unmarshalCartView_marshalCart (c : Cart) (hu : c.UserID < 2 ^ 64)
    (hr : SliceInRange c.Items) : unmarshalCartView (marshalCart c) = .ok ⟨c.UserID, c.Items⟩ := by
  have k1 : keyIs "user_id" "user_id" = true := by decide
  have k2 : keyIs "items" "user_id" = false := by decide
  have k3 : keyIs "items" "items" = true := by decide
  have k4 : keyIs "updated" "user_id" = false := by decide
  have k5 : keyIs "updated" "items" = false := by decide
  simp only [unmarshalCartView, marshalCart, List.foldlM_cons, List.foldlM_nil, setViewField,
    k1, k2, k3, k4, k5, unmarshalUint_int hu, unmarshal_marshalItems _ c.Items hr]
  rfl

theorem unmarshalItems_marshalCart (c : Cart) :
    unmarshalItems ErrorContext.top (marshalCart c) =
      .error "json: cannot unmarshal object into Go value of type []main.CartItem" := by
  simp only [unmarshalItems, marshalCart, Json.kind]
  rfl

theorem unmarshalCartView_marshalItems (xs : List CartItem) :
    unmarshalCartView (marshalItems (some xs)) =
      .error ("json: cannot unmarshal array into Go value of type " ++ cartViewType) := by
  simp only [unmarshalCartView, marshalItems, Json.kind]
  rfl

/-! ## Lemmas on `Atoi` -/

theorem parseUintLoop_decimal (cs : List Char) (n : Nat) (hn : n ≤ maxUint64)
    (h : ∀ c ∈ cs, 48 ≤ c.toNat ∧ c.toNat ≤ 57) :
    parseUintLoop cs n =
      if n * 10 ^ cs.length + Nat.ofDigits 10 ((cs.map fun c => c.toNat - 48).reverse)
          ≤ maxUint64 then
        (n * 10 ^ cs.length + Nat.ofDigits 10 ((cs.map fun c => c.toNat - 48).reverse), none)
      else (maxUint64, some .ErrRange) := by
  induction cs generalizing n with
  | nil => simp [parseUintLoop, hn]
  | cons c rest ih =>
    have hc := h c (List.mem_cons_self c rest)
    have hd : digitVal c = some (c.toNat - 48) := by
      unfold digitVal
      rw [if_pos hc]
    have hP : 1 ≤ 10 ^ rest.length := Nat.one_le_pow _ _ (by norm_num)
    have htot : n * 10 ^ (c :: rest).length +
          Nat.ofDigits 10 (((c :: rest).map fun c => c.toNat - 48).reverse) =
        (n * 10 + (c.toNat - 48)) * 10 ^ rest.length +
          Nat.ofDigits 10 ((rest.map fun c => c.toNat - 48).reverse) := by
      simp only [List.map_cons, List.reverse_cons, Nat.ofDigits_append, Nat.ofDigits_singleton,
        List.length_reverse, List.length_map, List.length_cons]
      ring
    have hge : n * 10 + (c.toNat - 48) ≤
        (n * 10 + (c.toNat - 48)) * 10 ^ rest.length := Nat.le_mul_of_pos_right _ hP
    rw [htot]
    simp only [parseUintLoop, hd]
    by_cases h1 : maxUint64 / 10 + 1 ≤ n
    · rw [if_pos h1, if_neg]
      simp only [maxUint64] at h1 ⊢
      omega
    · rw [if_neg h1]
      by_cases h2 : maxUint64 < n * 10 + (c.toNat - 48)
      · rw [if_pos h2, if_neg]
        omega
      · rw [if_neg h2]
        exact ih _ (by omega) (fun x hx => h x (List.mem_cons_of_mem c hx))

theorem Atoi_decimal (s : String) (h : IsDecimal s) :
    Atoi s =
      if decimalValue s < 2 ^ 63 then ((decimalValue s : Int), none)
      else ((2 ^ 63 : Int) - 1, some .ErrRange) := by
  obtain ⟨hne, hd⟩ := h
  unfold Atoi ParseInt
  cases hs : s.data with
  | nil => exact absurd hs hne
  | cons c cs =>
    have hc : 48 ≤ c.toNat ∧ c.toNat ≤ 57 := hd c (by rw [hs]; exact List.mem_cons_self c cs)
    have hm : c ≠ '-' := by
      rintro rfl
      revert hc
      decide
    have hp : c ≠ '+' := by
      rintro rfl
      revert hc
      decide
    have hall : ∀ x ∈ c :: cs, 48 ≤ x.toNat ∧ x.toNat ≤ 57 := by
      intro x hx
      exact hd x (by rw [hs]; exact hx)
    have hv : decimalValue s =
        0 * 10 ^ (c :: cs).length +
          Nat.ofDigits 10 (((c :: cs).map fun c => c.toNat - 48).reverse) := by
      unfold decimalValue
      rw [hs]
      simp
    have hu : ParseUint (c :: cs) =
        if decimalValue s ≤ maxUint64 then (decimalValue s, none)
        else (maxUint64, some .ErrRange) := by
      rw [hv]
      exact parseUintLoop_decimal (c :: cs) 0 (Nat.zero_le _) hall
    simp only [hm, hp, or_self, if_false, decide_False, hu]
    have e63 : (2 : Nat) ^ (intSize - 1) = 2 ^ 63 := rfl
    have e63i : (2 : Int) ^ (intSize - 1) = 2 ^ 63 := rfl
    rw [e63, e63i]
    have hmax : maxUint64 = 18446744073709551615 := rfl
    by_cases h1 : decimalValue s ≤ maxUint64
    · rw [if_pos h1]
      simp only [reduceCtorEq, if_false, Bool.false_eq_true, false_and, true_and]
      split_ifs <;> first | rfl | (exfalso; omega)
    · rw [if_neg h1]
      simp only [reduceCtorEq, if_false, Bool.false_eq_true, false_and, true_and,
        Option.some.injEq]
      rw [hmax] at h1 ⊢
      split_ifs <;> first | rfl | (exfalso; omega)

theorem uint_Atoi_decimal (s : String) (h : IsDecimal s) :
    uint (Atoi s).1 = min (decimalValue s) (2 ^ 63 - 1) := by
  rw [Atoi_decimal s h]
  by_cases hlt : decimalValue s < 2 ^ 63
  · rw [if_pos hlt]
    simp only
    rw [uint_of_nat hlt]
    omega
  · rw [if_neg hlt]
    have h1 : ((2 ^ 63 : Int) - 1) = ((2 ^ 63 - 1 : Nat) : Int) := by norm_num
    simp only
    rw [h1, uint_of_nat (by norm_num)]
    omega

/-! ## Lemmas on the handlers -/

theorem buildCart_items {D : Type} (gorm : GormDB D) (now : Time) (db : D) (item : CartItem) :
    (buildCart gorm now db item).2.Items = some [item] := rfl

theorem buildCart_userID_lt {D : Type} (gorm : GormDB D) (now : Time) (db : D)
    (item : CartItem) : (buildCart gorm now db item).2.UserID < 2 ^ 64 := by
  simp only [buildCart, intSize]
  exact Nat.mod_lt _ (by norm_num)

theorem AddToCartHandler_decoded {D : Type} (gorm : GormDB D) (now : Time)
    (setFault : Option WriteFault) (w : World D) (u : String) (body : Json) (i : CartItem)
    (hbody : unmarshalCartItem ErrorContext.top CartItem.zero body = .ok i) :
    AddToCartHandler gorm now setFault w u body =
      match setFault with
      | some f =>
        (⟨(buildCart gorm now w.db { i with UserID := uint (Atoi u).1 }).1,
            if f.applied then
              fun k => if k = cartKey u then
                some (marshalCart (buildCart gorm now w.db { i with UserID := uint (Atoi u).1 }).2)
              else w.rdb k
            else w.rdb⟩,
          httpError f.msg 500)
      | none =>
        (⟨(buildCart gorm now w.db { i with UserID := uint (Atoi u).1 }).1,
            fun k => if k = cartKey u then
              some (marshalCart (buildCart gorm now w.db { i with UserID := uint (Atoi u).1 }).2)
            else w.rdb k⟩,
          encodeOK (marshalCart (buildCart gorm now w.db { i with UserID := uint (Atoi u).1 }).2)) := by
  unfold AddToCartHandler
  simp only [hbody]
  cases setFault <;> rfl

theorem GetCartHandler_present {D : Type} (w : World D) (u : String) (cartJSON : Json)
    (hentry : w.rdb (cartKey u) = some cartJSON) :
    GetCartHandler none w u =
      match unmarshalCartView cartJSON with
      | .error e => (w, httpError e 500)
      | .ok cart => (w, encodeOK (marshalItems cart.Items)) := by
  unfold GetCartHandler rdbGet
  simp only [hentry]

theorem GetCartHandler_snapshot {D : Type} (w : World D) (u : String) (c : Cart)
    (hentry : w.rdb (cartKey u) = some (marshalCart c)) (hu : c.UserID < 2 ^ 64)
    (hr : SliceInRange c.Items) :
    GetCartHandler none w u = (w, encodeOK (marshalItems c.Items)) := by
  rw [GetCartHandler_present w u _ hentry, unmarshalCartView_marshalCart c hu hr]

theorem DeleteManyItemsHandler_present {D : Type} (w : World D)
    (u : String) (body cartJSON : Json) (items cart : Option (List CartItem))
    (hbody : unmarshalItems ErrorContext.top body = .ok items)
    (hentry : w.rdb (cartKey u) = some cartJSON)
    (hdec : unmarshalItems ErrorContext.top cartJSON = .ok cart) :
    DeleteManyItemsHandler none none w u body =
      (⟨w.db, fun k => if k = cartKey u then
          some (marshalItems (cart.map fun c => removeLoop c (items.getD [])))
        else w.rdb k⟩,
        encodeOK (marshalMessage "Items deleted successfully")) := by
  unfold DeleteManyItemsHandler rdbGet
  simp only [hbody, hentry, hdec]
  rfl

theorem DeleteManyItemsHandler_undecodable {D : Type} (setFault : Option WriteFault)
    (w : World D) (u : String) (body cartJSON : Json) (items : Option (List CartItem))
    (e : String) (hbody : unmarshalItems ErrorContext.top body = .ok items)
    (hentry : w.rdb (cartKey u) = some cartJSON)
    (hdec : unmarshalItems ErrorContext.top cartJSON = .error e) :
    DeleteManyItemsHandler none setFault w u body = (w, httpError e 500) := by
  unfold DeleteManyItemsHandler rdbGet
  simp only [hbody, hentry, hdec]

theorem sliceInRange_removeLoop {cart : Option (List CartItem)} (h : SliceInRange cart)
    (items : List CartItem) : SliceInRange (cart.map fun c => removeLoop c items) := by
  cases cart with
  | none => exact h
  | some l => exact fun it hit => h it ((removeLoop_sublist l items).subset hit)

/-- For every decimal path segment `u` and every body that decodes to an item
`i`, with the cache reachable and whatever the database does, adding answers
200 and the read that follows answers 200 with the list holding `i` with
`UserID` set to the value of `u` capped at `2 ^ 63 - 1`. -/
theorem add_then_read {D : Type} (gorm : GormDB D) (now : Time) (w : World D) (u : String)
    (body : Json) (i : CartItem)
    (hbody : unmarshalCartItem ErrorContext.top CartItem.zero body = .ok i)
    (hu : IsDecimal u) :
    (AddToCartHandler gorm now none w u body).2.status = 200 ∧
    GetCartHandler none (AddToCartHandler gorm now none w u body).1 u =
      ((AddToCartHandler gorm now none w u body).1,
        encodeOK (marshalItems
          (some [⟨i.ProductID, i.Quantity, min (decimalValue u) (2 ^ 63 - 1)⟩]))) := by
  have hi := unmarshalCartItem_inRange hbody CartItem.zero_inRange
  have huid := uint_Atoi_decimal u hu
  rw [AddToCartHandler_decoded gorm now none w u body i hbody]
  refine ⟨rfl, ?_⟩
  simp only [huid]
  have hitems := buildCart_items gorm now w.db
    ⟨i.ProductID, i.Quantity, min (decimalValue u) (2 ^ 63 - 1)⟩
  rw [GetCartHandler_snapshot _ u
    (buildCart gorm now w.db ⟨i.ProductID, i.Quantity, min (decimalValue u) (2 ^ 63 - 1)⟩).2
    (by simp) (buildCart_userID_lt _ _ _ _) ?_, hitems]
  rw [hitems]
  intro it hit
  rcases List.mem_singleton.mp hit with rfl
  exact ⟨hi.1, hi.2.1, show min (decimalValue u) (2 ^ 63 - 1) < 2 ^ 64 by omega⟩

/-! ## Adding items -/

/-- C1, evaluated at two successive adds for user 7 starting from empty
stores: after adding product 1 and then product 2, the cache entry decodes to
the item list holding product 2 only, and reading the cart returns that
one-element list; the first item is gone. -/
theorem second_add_overwrites_first :
    ((AddToCartHandler tableGorm ⟨"t2"⟩ none
        (AddToCartHandler tableGorm ⟨"t1"⟩ none emptyWorld "7" (marshalCartItem ⟨1, 1, 0⟩)).1
        "7" (marshalCartItem ⟨2, 1, 0⟩)).1.rdb (cartKey "7")).map unmarshalCartView
      = some (.ok ⟨7, some [⟨2, 1, 7⟩]⟩) ∧
    (GetCartHandler none
      (AddToCartHandler tableGorm ⟨"t2"⟩ none
        (AddToCartHandler tableGorm ⟨"t1"⟩ none emptyWorld "7" (marshalCartItem ⟨1, 1, 0⟩)).1
        "7" (marshalCartItem ⟨2, 1, 0⟩)).1 "7").2
      = encodeOK (marshalItems (some [⟨2, 1, 7⟩])) :=
  ⟨rfl, rfl⟩

/-- C2, evaluated at the decimal path segment 9223372036854775808 (a value
of `uint64` beyond the range of `int`) starting from empty stores: the add is
answered 200 and the list read back holds the item with `UserID`
9223372036854775807, so it does not contain the item with `UserID` replaced
by the value of the path. -/
theorem add_read_userID_saturates :
    IsDecimal "9223372036854775808" ∧
    decimalValue "9223372036854775808" = 9223372036854775808 ∧
    (AddToCartHandler tableGorm ⟨"t"⟩ none emptyWorld "9223372036854775808"
      (marshalCartItem ⟨1, 1, 0⟩)).2.status = 200 ∧
    (GetCartHandler none
      (AddToCartHandler tableGorm ⟨"t"⟩ none emptyWorld "9223372036854775808"
        (marshalCartItem ⟨1, 1, 0⟩)).1 "9223372036854775808").2
      = encodeOK (marshalItems (some [⟨1, 1, 9223372036854775807⟩])) ∧
    (⟨1, 1, 9223372036854775808⟩ : CartItem) ∉ [(⟨1, 1, 9223372036854775807⟩ : CartItem)] :=
  ⟨by decide, by decide, rfl, rfl, by decide⟩

/-- C6 as stated fails when the database is down: both `gorm` calls of the
handler return an error, and the handler still answers 200 with the snapshot
and writes the cache entry. -/
theorem add_succeeds_with_database_down :
    (∀ h uid, (tableGorm.FirstOrCreate downWorld.db h uid).2.2 =
      some "unable to open database file") ∧
    (∀ h, (tableGorm.Save downWorld.db h).2.2 = some "unable to open database file") ∧
    (AddToCartHandler tableGorm ⟨"t"⟩ none downWorld "7" (marshalCartItem ⟨1, 1, 0⟩)).2
      = encodeOK (marshalCart ⟨0, some [⟨1, 1, 7⟩], ⟨"t"⟩⟩) ∧
    ((AddToCartHandler tableGorm ⟨"t"⟩ none downWorld "7" (marshalCartItem ⟨1, 1, 0⟩)).1.rdb
      (cartKey "7")).map unmarshalCartView = some (.ok ⟨0, some [⟨1, 1, 7⟩]⟩) :=
  ⟨fun _ _ => rfl, fun _ => rfl, rfl, rfl⟩

/-- C6, amended: for every body that decodes to an item, whatever the two
database calls do or report, the handler answers 500 with the text of the
error exactly when the cache write returns an error, and answers 200 with the
snapshot of the cart it built exactly when the cache write succeeds. -/
theorem add_fails_iff_cache_write_fails {D : Type} (gorm : GormDB D) (now : Time)
    (setFault : Option WriteFault) (w : World D) (u : String) (body : Json) (i : CartItem)
    (hbody : unmarshalCartItem ErrorContext.top CartItem.zero body = .ok i) :
    ((AddToCartHandler gorm now setFault w u body).2.status = 500 ↔ setFault ≠ none) ∧
    ((AddToCartHandler gorm now setFault w u body).2.status = 200 ↔ setFault = none) ∧
    (∀ f, setFault = some f →
      (AddToCartHandler gorm now setFault w u body).2 = httpError f.msg 500) ∧
    (setFault = none →
      (AddToCartHandler gorm now setFault w u body).2 =
        encodeOK (marshalCart (buildCart gorm now w.db { i with UserID := uint (Atoi u).1 }).2))
    := by
  rw [AddToCartHandler_decoded gorm now setFault w u body i hbody]
  cases setFault with
  | none => simp [encodeOK]
  | some f => simp [httpError]

/-- Witness of `add_fails_iff_cache_write_fails`: the database is down and
the cache write returns an error after the server applied it. -/
theorem add_fails_iff_cache_write_fails_witness :
    unmarshalCartItem ErrorContext.top CartItem.zero (marshalCartItem ⟨1, 1, 0⟩) =
      .ok ⟨1, 1, 0⟩ ∧
    (AddToCartHandler tableGorm ⟨"t"⟩ (some ⟨"i/o timeout", true⟩) downWorld "7"
      (marshalCartItem ⟨1, 1, 0⟩)).2.status = 500 :=
  ⟨rfl, (add_fails_iff_cache_write_fails tableGorm ⟨"t"⟩ (some ⟨"i/o timeout", true⟩) downWorld
    "7" (marshalCartItem ⟨1, 1, 0⟩) ⟨1, 1, 0⟩ rfl).1.mpr (by simp)⟩

/-! ## Removing items -/

/-- C3: when the request body decodes to the slice `R`, the cache entry of
`u` decodes to the slice `L` and both cache calls succeed, the handler answers
200 and overwrites the entry, and nothing else, with the encoding of the list
obtained from `L` by processing the product identifiers of `R` from left to
right, each removing the first item in list order with that `ProductID` and
nothing when there is none; that entry decodes back to this list, which is a
sublist of `L`. -/
theorem remove_items_first_match {D : Type} (w : World D) (u : String) (body cartJSON : Json)
    (R L : Option (List CartItem)) (hbody : unmarshalItems ErrorContext.top body = .ok R)
    (hentry : w.rdb (cartKey u) = some cartJSON)
    (hdec : unmarshalItems ErrorContext.top cartJSON = .ok L) :
    DeleteManyItemsHandler none none w u body =
      (⟨w.db, fun k => if k = cartKey u then
          some (marshalItems
            (L.map fun l => removeRequested l ((R.getD []).map CartItem.ProductID)))
        else w.rdb k⟩,
        encodeOK (marshalMessage "Items deleted successfully")) ∧
    unmarshalItems ErrorContext.top
        (marshalItems (L.map fun l => removeRequested l ((R.getD []).map CartItem.ProductID))) =
      .ok (L.map fun l => removeRequested l ((R.getD []).map CartItem.ProductID)) ∧
    List.Sublist (removeRequested (L.getD []) ((R.getD []).map CartItem.ProductID))
      (L.getD []) := by
  have hfun : (fun l => removeRequested l ((R.getD []).map CartItem.ProductID)) =
      fun l => removeLoop l (R.getD []) := funext fun l => (removeLoop_eq l (R.getD [])).symm
  rw [hfun, ← removeLoop_eq]
  refine ⟨?_, ?_, removeLoop_sublist _ _⟩
  · rw [DeleteManyItemsHandler_present w u body cartJSON R L hbody hentry hdec]
  · exact unmarshal_marshalItems _ _ (sliceInRange_removeLoop (unmarshalItems_inRange hdec) _)

/-- Witness of `remove_items_first_match` on the three carts of the
specification: `[p1, p1, p2]` less `[p1]` is `[p1, p2]`, `[p1, p2, p3]` less
`[p1, p3]` is `[p2]`, and `[p1]` less `[p99]` is `[p1]`. -/
theorem remove_items_first_match_witness :
    (DeleteManyItemsHandler none none
      (worldWithEntry "7" (marshalItems (some [⟨1, 5, 7⟩, ⟨1, 6, 7⟩, ⟨2, 5, 7⟩]))) "7"
      (marshalItems (some [⟨1, 0, 0⟩]))).1.rdb (cartKey "7") =
      some (marshalItems (some [⟨1, 6, 7⟩, ⟨2, 5, 7⟩])) ∧
    (DeleteManyItemsHandler none none
      (worldWithEntry "7" (marshalItems (some [⟨1, 5, 7⟩, ⟨2, 5, 7⟩, ⟨3, 5, 7⟩]))) "7"
      (marshalItems (some [⟨1, 0, 0⟩, ⟨3, 0, 0⟩]))).1.rdb (cartKey "7") =
      some (marshalItems (some [⟨2, 5, 7⟩])) ∧
    (DeleteManyItemsHandler none none
      (worldWithEntry "7" (marshalItems (some [⟨1, 5, 7⟩]))) "7"
      (marshalItems (some [⟨99, 0, 0⟩]))).1.rdb (cartKey "7") =
      some (marshalItems (some [⟨1, 5, 7⟩])) := by
  refine ⟨?_, ?_, ?_⟩
  · rw [(remove_items_first_match
      (worldWithEntry "7" (marshalItems (some [⟨1, 5, 7⟩, ⟨1, 6, 7⟩, ⟨2, 5, 7⟩]))) "7"
      (marshalItems (some [⟨1, 0, 0⟩])) _ (some [⟨1, 0, 0⟩])
      (some [⟨1, 5, 7⟩, ⟨1, 6, 7⟩, ⟨2, 5, 7⟩]) rfl rfl rfl).1]
    rfl
  · rw [(remove_items_first_match
      (worldWithEntry "7" (marshalItems (some [⟨1, 5, 7⟩, ⟨2, 5, 7⟩, ⟨3, 5, 7⟩]))) "7"
      (marshalItems (some [⟨1, 0, 0⟩, ⟨3, 0, 0⟩])) _ (some [⟨1, 0, 0⟩, ⟨3, 0, 0⟩])
      (some [⟨1, 5, 7⟩, ⟨2, 5, 7⟩, ⟨3, 5, 7⟩]) rfl rfl rfl).1]
    rfl
  · rw [(remove_items_first_match
      (worldWithEntry "7" (marshalItems (some [⟨1, 5, 7⟩]))) "7"
      (marshalItems (some [⟨99, 0, 0⟩])) _ (some [⟨99, 0, 0⟩])
      (some [⟨1, 5, 7⟩]) rfl rfl rfl).1]
    rfl

/-- C4, evaluated for user 7 starting from empty stores: after adding
product 1, the request to remove product 1 is answered 500 with the decoding
error of the entry, the entry still decodes to the cart holding that item,
and reading the cart returns the one-element list, not the empty list. -/
theorem remove_after_add_is_rejected :
    (DeleteManyItemsHandler none none
      (AddToCartHandler tableGorm ⟨"t"⟩ none emptyWorld "7" (marshalCartItem ⟨1, 1, 0⟩)).1 "7"
      (marshalItems (some [⟨1, 0, 0⟩]))).2 =
      httpError "json: cannot unmarshal object into Go value of type []main.CartItem" 500 ∧
    ((DeleteManyItemsHandler none none
      (AddToCartHandler tableGorm ⟨"t"⟩ none emptyWorld "7" (marshalCartItem ⟨1, 1, 0⟩)).1 "7"
      (marshalItems (some [⟨1, 0, 0⟩]))).1.rdb (cartKey "7")).map unmarshalCartView =
      some (.ok ⟨7, some [⟨1, 1, 7⟩]⟩) ∧
    (GetCartHandler none
      (DeleteManyItemsHandler none none
        (AddToCartHandler tableGorm ⟨"t"⟩ none emptyWorld "7" (marshalCartItem ⟨1, 1, 0⟩)).1 "7"
        (marshalItems (some [⟨1, 0, 0⟩]))).1 "7").2 =
      encodeOK (marshalItems (some [⟨1, 1, 7⟩])) :=
  ⟨rfl, rfl, rfl⟩

/-- C5, on the second shape: for every store state, user and item list `L`,
once the cache entry of the user is the bare JSON array of `L`, as
`DeleteManyItemsHandler` writes it, reading the cart is answered 500 with a
decoding error instead of `L`. -/
theorem read_rejects_bare_item_list {D : Type} (w : World D) (u : String) (L : List CartItem) :
    (GetCartHandler none
      ⟨w.db, (rdbSet w.rdb (cartKey u) (marshalItems (some L)) none).1⟩ u).2 =
      httpError ("json: cannot unmarshal array into Go value of type " ++ cartViewType) 500 := by
  rw [GetCartHandler_present _ u (marshalItems (some L)) (by simp [rdbSet]),
    unmarshalCartView_marshalItems]

/-- C7: when the request body decodes and the cache holds no entry for the
user, the handler answers 500 and both stores are left as they were, whether
or not the cache calls themselves fail. -/
theorem remove_items_absent {D : Type} (getFault : Option String)
    (setFault : Option WriteFault) (w : World D) (u : String) (body : Json)
    (R : Option (List CartItem)) (hbody : unmarshalItems ErrorContext.top body = .ok R)
    (habs : w.rdb (cartKey u) = none) :
    (DeleteManyItemsHandler getFault setFault w u body).1 = w ∧
    (DeleteManyItemsHandler getFault setFault w u body).2.status = 500 ∧
    (DeleteManyItemsHandler none setFault w u body).2 = httpError "redis: nil" 500 := by
  unfold DeleteManyItemsHandler rdbGet
  simp only [hbody, habs]
  cases getFault <;> simp [httpError]

/-- Witness of `remove_items_absent`: empty stores, a request for product 1. -/
theorem remove_items_absent_witness :
    unmarshalItems ErrorContext.top (marshalItems (some [⟨1, 0, 0⟩])) = .ok (some [⟨1, 0, 0⟩]) ∧
    emptyWorld.rdb (cartKey "7") = none ∧
    (DeleteManyItemsHandler none none emptyWorld "7" (marshalItems (some [⟨1, 0, 0⟩]))).2.status
      = 500 :=
  ⟨rfl, rfl, (remove_items_absent none none emptyWorld "7" (marshalItems (some [⟨1, 0, 0⟩]))
    (some [⟨1, 0, 0⟩]) rfl rfl).2.1⟩

/-! ## Deleting and reading a cart -/

/-- C8: with the cache reachable, deleting a cart answers 200 whether or not
the key exists, a second delete answers 200 too and leaves the state reached
by the first, the database is untouched, the key of the user is absent and
every other key holds what it held. -/
theorem delete_cart_idempotent {D : Type} (w : World D) (u : String) :
    (DeleteCartHandler none w u).2 = encodeOK (marshalMessage "Cart deleted successfully") ∧
    (DeleteCartHandler none (DeleteCartHandler none w u).1 u).2 =
      encodeOK (marshalMessage "Cart deleted successfully") ∧
    (DeleteCartHandler none (DeleteCartHandler none w u).1 u).1 = (DeleteCartHandler none w u).1 ∧
    (DeleteCartHandler none w u).1.db = w.db ∧
    (DeleteCartHandler none w u).1.rdb = fun k => if k = cartKey u then none else w.rdb k := by
  refine ⟨rfl, rfl, ?_, rfl, rfl⟩
  simp only [DeleteCartHandler, rdbDel]
  congr 1
  funext k
  split <;> rfl

/-- C9: when the cache holds no entry for the user, reading the cart leaves
both stores as they were; it answers 200 with the empty array when the lookup
reports the missing key, and it answers with another status exactly when the
lookup itself fails, then 500 with the error of the lookup. -/
theorem read_cart_absent {D : Type} (getFault : Option String) (w : World D) (u : String)
    (habs : w.rdb (cartKey u) = none) :
    (GetCartHandler getFault w u).1 = w ∧
    (GetCartHandler none w u).2 = encodeOK (.arr []) ∧
    ((GetCartHandler getFault w u).2.status ≠ 200 ↔ getFault ≠ none) ∧
    (∀ e, getFault = some e → (GetCartHandler getFault w u).2 = httpError e 500) := by
  unfold GetCartHandler rdbGet
  simp only [habs]
  cases getFault <;> simp [encodeOK, httpError, marshalItems]

/-- Witness of `read_cart_absent`: a cart that was never touched, and a cart
whose entry has just been deleted. -/
theorem read_cart_absent_witness :
    (emptyWorld.rdb (cartKey "7") = none ∧
      (GetCartHandler none emptyWorld "7").2 = encodeOK (.arr [])) ∧
    ((DeleteCartHandler none (worldWithEntry "7" (marshalItems (some [⟨1, 5, 7⟩]))) "7").1.rdb
        (cartKey "7") = none ∧
      (GetCartHandler none
        (DeleteCartHandler none (worldWithEntry "7" (marshalItems (some [⟨1, 5, 7⟩]))) "7").1
        "7").2 = encodeOK (.arr [])) :=
  ⟨⟨rfl, (read_cart_absent none emptyWorld "7" rfl).2.1⟩,
    ⟨rfl, (read_cart_absent none
      (DeleteCartHandler none (worldWithEntry "7" (marshalItems (some [⟨1, 5, 7⟩]))) "7").1
      "7" rfl).2.1⟩⟩

/-! ## The counting law of the removal loop -/

/-- C10: for every cart `L`, request `R` and product `p`, the list left by
the removal loop holds `count p L - count p R` items of product `p`
(truncated at zero), is a sublist of `L`, has length `length L` less the sum
over the distinct products `q` of `R` of `min (count q L) (count q R)`, and
is the same for every reordering `R2` of `R`. -/
theorem remove_loop_counting (L R R2 : List CartItem) (p : Nat) (hperm : List.Perm R R2) :
    countProduct p (removeLoop L R) = countProduct p L - countProduct p R ∧
    List.Sublist (removeLoop L R) L ∧
    (removeLoop L R).length =
      L.length - ∑ q in productIDs R, min (countProduct q L) (countProduct q R) ∧
    removeLoop L R = removeLoop L R2 := by
  refine ⟨countProduct_removeLoop p L R, removeLoop_sublist L R, ?_, removeLoop_perm L hperm⟩
  have h := length_removeLoop L R
  omega

/-- Witness of `remove_loop_counting`: the cart `[p1, p2, p1, p3]` with the
requests `[p1, p3, p1, p4]` and their reordering `[p4, p1, p1, p3]`. -/
theorem remove_loop_counting_witness :
    List.Perm [(⟨1, 0, 0⟩ : CartItem), ⟨3, 0, 0⟩, ⟨1, 0, 0⟩, ⟨4, 0, 0⟩]
      [⟨4, 0, 0⟩, ⟨1, 0, 0⟩, ⟨1, 0, 0⟩, ⟨3, 0, 0⟩] ∧
    removeLoop [⟨1, 5, 7⟩, ⟨2, 5, 7⟩, ⟨1, 6, 7⟩, ⟨3, 5, 7⟩]
        [⟨1, 0, 0⟩, ⟨3, 0, 0⟩, ⟨1, 0, 0⟩, ⟨4, 0, 0⟩] = [⟨2, 5, 7⟩] ∧
    removeLoop [⟨1, 5, 7⟩, ⟨2, 5, 7⟩, ⟨1, 6, 7⟩, ⟨3, 5, 7⟩]
        [⟨1, 0, 0⟩, ⟨3, 0, 0⟩, ⟨1, 0, 0⟩, ⟨4, 0, 0⟩] =
      removeLoop [⟨1, 5, 7⟩, ⟨2, 5, 7⟩, ⟨1, 6, 7⟩, ⟨3, 5, 7⟩]
        [⟨4, 0, 0⟩, ⟨1, 0, 0⟩, ⟨1, 0, 0⟩, ⟨3, 0, 0⟩] :=
  ⟨by decide, by decide,
    (remove_loop_counting [⟨1, 5, 7⟩, ⟨2, 5, 7⟩, ⟨1, 6, 7⟩, ⟨3, 5, 7⟩]
      [⟨1, 0, 0⟩, ⟨3, 0, 0⟩, ⟨1, 0, 0⟩, ⟨4, 0, 0⟩] [⟨4, 0, 0⟩, ⟨1, 0, 0⟩, ⟨1, 0, 0⟩, ⟨3, 0, 0⟩]
      1 (by decide)).2.2.2⟩

end ShoppingCart
